import Mathlib

/-!
Shallow embedding of the salon-booking backend (Express + Prisma routes) and
verification of the specification's claims about its slot-capacity and
booking-lifecycle engine.

Database rows are modelled as Lean lists indexed by natural-number ids
(`List.get? id` plays the role of `findUnique({where: {id}})`); Prisma counter
columns are `Int` so that unguarded decrements can be observed going negative.
Each route handler becomes a pure function `State → State × Except Err α`:
a thrown error before/inside the transaction is modelled by returning the
input state unchanged together with `.error e`, mirroring the all-or-nothing
transaction semantics of the source.
-/

namespace SalonShop

/-- Salon lifecycle status (`pending|approved|rejected|suspended`). -/
inductive SalonStatus
  | pending
  | approved
  | rejected
  | suspended
deriving DecidableEq, Repr

/-- Booking lifecycle status (`booked|in_progress|completed|cancelled|no_show`). -/
inductive BookingStatus
  | booked
  | in_progress
  | completed
  | cancelled
  | no_show
deriving DecidableEq, Repr

/-- Global role claims carried in the JWT (`middleware/auth.ts`, `JWTPayload.roles`). -/
inductive Role
  | super_admin
  | salon_admin
  | salon_staff
  | user
deriving DecidableEq, Repr

/-- Per-salon membership role (`JWTPayload.salonMemberships[].role`). -/
inductive MemberRole
  | salon_admin
  | salon_staff
deriving DecidableEq, Repr

/-- One entry of `JWTPayload.salonMemberships`. -/
structure Membership where
  salonId : Nat
  role : MemberRole
deriving DecidableEq, Repr

/-- The decoded JWT payload attached to an authenticated request
(`middleware/auth.ts`, interface `JWTPayload`; `iat`/`exp`/`phone` are
irrelevant to the claims and omitted). -/
structure JWTPayload where
  userId : Nat
  roles : List Role
  salonMemberships : List Membership
deriving DecidableEq, Repr

/-- `isSuperAdmin(req)`: `req.user?.roles?.includes('super_admin') ?? false`.
The argument is the optional `req.user`. -/
def isSuperAdmin (user : Option JWTPayload) : Bool :=
  match user with
  | none => false
  | some u => u.roles.contains Role.super_admin

/-- `isSalonAdmin(req, salonId)`: super admin, or a membership for that salon
with role `salon_admin`. -/
def isSalonAdmin (user : Option JWTPayload) (salonId : Nat) : Bool :=
  if isSuperAdmin user then true
  else
    match user with
    | none => false
    | some u => u.salonMemberships.any fun m =>
        m.salonId == salonId && m.role == MemberRole.salon_admin

/-- `isSalonStaff(req, salonId)`: super admin, or any membership for that
salon (admin or staff). -/
def isSalonStaff (user : Option JWTPayload) (salonId : Nat) : Bool :=
  if isSuperAdmin user then true
  else
    match user with
    | none => false
    | some u => u.salonMemberships.any fun m => m.salonId == salonId

/-- One day's entry in a salon's weekly `operatingHours` map.  The JSON keys
`open`/`close` are clock strings; `open` is a Lean keyword so the fields are
named `openTime`/`closeTime`. -/
structure DayHours where
  openTime : String
  closeTime : String
  closed : Bool
deriving DecidableEq, Repr

/-- A salon row (fields the claims touch; `routes/salons.ts`). -/
structure Salon where
  name : String
  status : SalonStatus
  createdBy : Nat
  phone : Option String := none
  email : Option String := none
  facebookPage : Option String := none
  instagramPage : Option String := none
  whatsAppNumber : Option String := none
  operatingHours : List (String × DayHours) := []
deriving DecidableEq, Repr

/-- A service row. -/
structure Service where
  salonId : Nat
  durationMinutes : Nat
  price : Int := 0
  isActive : Bool
deriving DecidableEq, Repr

/-- A slot row.  `bookedCount` and `capacity` are `Int` (Prisma `Int`
columns); nothing in the routes stops an unguarded `decrement` from going
negative, so the embedding must be able to represent that.  `date`,
`startTime`, `endTime` are minutes-based stand-ins for the stored `DateTime`
values. -/
structure Slot where
  salonId : Nat
  date : Nat := 0
  startTime : Nat := 0
  endTime : Nat := 0
  capacity : Int
  bookedCount : Int
  staffId : Option Nat := none
deriving DecidableEq, Repr

/-- A booking row.  Timestamps are modelled as `Option Nat` (`none` = column
null, `some now` = written by the handler with the current time). -/
structure Booking where
  userId : Nat
  salonId : Nat
  serviceId : Nat
  slotId : Nat
  staffId : Option Nat := none
  bookingDate : Nat := 0
  startTime : Nat := 0
  endTime : Nat := 0
  status : BookingStatus
  notes : Option String := none
  cancelledAt : Option Nat := none
  completedAt : Option Nat := none
  completedBy : Option Nat := none
  serviceStarted : Option Nat := none
deriving DecidableEq, Repr

/-- The database.  Rows are lists indexed by id (`get? id` = `findUnique`);
users are only ever looked up for existence, so a count suffices:
user `u` exists iff `u < users`. -/
structure State where
  users : Nat
  salons : List Salon
  services : List Service
  slots : List Slot
  bookings : List Booking
deriving DecidableEq, Repr

/-- Error outcomes of the route handlers (each constructor corresponds to one
`createError(...)` site; the HTTP codes/messages are irrelevant to the
claims). -/
inductive Err
  | authRequired
  | userNotFound
  | salonUnavailable
  | serviceUnavailable
  | slotFull
  | bookingNotFound
  | accessDenied
  | invalidTransition
  | notFound
  | validationError
deriving DecidableEq, Repr

/-- Request body of `POST /api/bookings` (ids as `Nat`, times as minutes;
the zod id-format regexes have no counterpart for `Nat` ids and the model
keeps `bookingDate`/`startTime` always-valid, matching the handler's
invalid-date check never firing). -/
structure CreateBookingReq where
  salonId : Nat
  serviceId : Nat
  slotId : Nat
  staffId : Option Nat := none
  bookingDate : Nat := 0
  startTime : Nat := 0
  notes : Option String := none
deriving DecidableEq, Repr

/-- `POST /api/bookings` (create booking), `routes/bookings.ts` lines
107-218.  Checks, in source order: authenticated user, user row exists,
salon exists and is `approved`, service exists and is active, slot exists
and `bookedCount < capacity`; then in one transaction creates the booking
with status `booked` and increments the slot's `bookedCount` (also writing
the slot's `staffId` when the request carries one — Prisma leaves the column
untouched when the value is `undefined`).  There is no check against an
existing booking by the same user for the same slot. -/
def createBooking (σ : State) (user : Option JWTPayload) (data : CreateBookingReq) :
    State × Except Err Booking :=
  match user with
  | none => (σ, .error .authRequired)
  | some u =>
    if σ.users ≤ u.userId then (σ, .error .userNotFound)
    else
      match σ.salons[data.salonId]? with
      | none => (σ, .error .salonUnavailable)
      | some salon =>
        if salon.status ≠ .approved then (σ, .error .salonUnavailable)
        else
          match σ.services[data.serviceId]? with
          | none => (σ, .error .serviceUnavailable)
          | some service =>
            if ¬ service.isActive then (σ, .error .serviceUnavailable)
            else
              match σ.slots[data.slotId]? with
              | none => (σ, .error .slotFull)
              | some slot =>
                if slot.capacity ≤ slot.bookedCount then (σ, .error .slotFull)
                else
                  let booking : Booking :=
                    { userId := u.userId
                      salonId := data.salonId
                      serviceId := data.serviceId
                      slotId := data.slotId
                      staffId := data.staffId
                      bookingDate := data.bookingDate
                      startTime := data.startTime
                      endTime := data.startTime + service.durationMinutes
                      status := .booked
                      notes := data.notes }
                  let slot' : Slot :=
                    { slot with
                      bookedCount := slot.bookedCount + 1
                      staffId := match data.staffId with
                                 | some s => some s
                                 | none => slot.staffId }
                  (⟨σ.users, σ.salons, σ.services,
                    σ.slots.set data.slotId slot',
                    σ.bookings ++ [booking]⟩, .ok booking)

/-- `POST /api/bookings/:bookingId/cancel`, `routes/bookings.ts` lines
254-296.  Owner, salon staff, or super admin; only from status `booked`;
one transaction sets the booking `cancelled`/`cancelledAt` and decrements
the slot's `bookedCount` (a missing slot row aborts the whole
transaction). -/
def cancelBooking (σ : State) (u : JWTPayload) (bookingId : Nat) (now : Nat) :
    State × Except Err Booking :=
  match σ.bookings[bookingId]? with
  | none => (σ, .error .bookingNotFound)
  | some booking =>
    let isOwner := booking.userId == u.userId
    if ¬ (isOwner || isSalonStaff (some u) booking.salonId || isSuperAdmin (some u)) then
      (σ, .error .accessDenied)
    else if booking.status ≠ .booked then (σ, .error .invalidTransition)
    else
      match σ.slots[booking.slotId]? with
      | none => (σ, .error .notFound)
      | some slot =>
        let booking' := { booking with status := .cancelled, cancelledAt := some now }
        (⟨σ.users, σ.salons, σ.services,
          σ.slots.set booking.slotId { slot with bookedCount := slot.bookedCount - 1 },
          σ.bookings.set bookingId booking'⟩, .ok booking')

/-- The update payload of the complete handler (`routes/bookings.ts` lines
327-334): new status plus `completedAt`/`completedBy`. -/
def completedUpdate (b : Booking) (markNoShow : Bool) (now uid : Nat) : Booking :=
  { b with
    status := if markNoShow then .no_show else .completed
    completedAt := some now
    completedBy := some uid }

/-- `POST /api/bookings/:bookingId/complete`, `routes/bookings.ts` lines
302-341.  Staff/admin only; only from `booked` or `in_progress`; updates the
booking row alone (status `no_show` when `markNoShow`, else `completed`,
plus `completedAt`/`completedBy`).  No slot row is touched. -/
def completeBooking (σ : State) (u : JWTPayload) (bookingId : Nat)
    (markNoShow : Bool) (now : Nat) : State × Except Err Booking :=
  match σ.bookings[bookingId]? with
  | none => (σ, .error .bookingNotFound)
  | some booking =>
    if ¬ (isSalonStaff (some u) booking.salonId || isSuperAdmin (some u)) then
      (σ, .error .accessDenied)
    else if booking.status ≠ .booked ∧ booking.status ≠ .in_progress then
      (σ, .error .invalidTransition)
    else
      let booking' := completedUpdate booking markNoShow now u.userId
      ({ σ with bookings := σ.bookings.set bookingId booking' }, .ok booking')

/-- Request body of `PATCH /api/bookings/:bookingId/update`.  A `false`
`serviceStarted` models both an absent field and an explicit `false` (the
handler only tests truthiness). -/
structure UpdateBookingReq where
  serviceStarted : Bool := false
  serviceId : Option Nat := none
  slotId : Option Nat := none
  bookingDate : Option Nat := none
deriving DecidableEq, Repr

/-- The dynamic update payload of the update handler (`routes/bookings.ts`
lines 372-387) applied to a booking row: `serviceStarted` moves the status
to `in_progress` and stamps the time; present `serviceId`/`slotId`/
`bookingDate` fields overwrite the row's. -/
def applyUpdatePayload (b : Booking) (data : UpdateBookingReq) (now : Nat) : Booking :=
  let b1 := if data.serviceStarted then
              { b with status := .in_progress, serviceStarted := some now }
            else b
  let b2 := match data.serviceId with
            | some s => { b1 with serviceId := s }
            | none => b1
  let b3 := match data.slotId with
            | some s => { b2 with slotId := s }
            | none => b2
  match data.bookingDate with
  | some d => { b3 with bookingDate := d }
  | none => b3

/-- `PATCH /api/bookings/:bookingId/update`, `routes/bookings.ts` lines
347-423.  Staff/admin only.  `serviceStarted` requires status `booked` and
moves it to `in_progress`.  When `slotId` is present and differs from the
booking's current slot, one transaction decrements the old slot, increments
the new slot — with no capacity check on the new slot — and applies the
accumulated update payload to the booking (a missing slot row aborts the
whole transaction); otherwise only the booking row is updated. -/
def updateBooking (σ : State) (u : JWTPayload) (bookingId : Nat)
    (data : UpdateBookingReq) (now : Nat) : State × Except Err Unit :=
  match σ.bookings[bookingId]? with
  | none => (σ, .error .bookingNotFound)
  | some booking =>
    if ¬ (isSalonStaff (some u) booking.salonId || isSuperAdmin (some u)) then
      (σ, .error .accessDenied)
    else if data.serviceStarted ∧ booking.status ≠ .booked then
      (σ, .error .invalidTransition)
    else
      let b4 := applyUpdatePayload booking data now
      match data.slotId with
      | some newSlotId =>
        if newSlotId ≠ booking.slotId then
          match σ.slots[booking.slotId]?, σ.slots[newSlotId]? with
          | some oldSlot, some newSlot =>
            let slots1 := σ.slots.set booking.slotId
              { oldSlot with bookedCount := oldSlot.bookedCount - 1 }
            let slots2 := slots1.set newSlotId
              { newSlot with bookedCount := newSlot.bookedCount + 1 }
            (⟨σ.users, σ.salons, σ.services, slots2,
              σ.bookings.set bookingId b4⟩, .ok ())
          | _, _ => (σ, .error .notFound)
        else
          ({ σ with bookings := σ.bookings.set bookingId b4 }, .ok ())
      | none =>
        ({ σ with bookings := σ.bookings.set bookingId b4 }, .ok ())

/-- `PUT /api/salons/:salonId/slots/:slotId` (capacity edit),
`routes/salons.ts` lines 586-605.  Salon admin only; zod bounds the new
capacity to `[1, 50]`; the update matches the row on `{id, salonId}` and
writes the capacity with no comparison against `bookedCount`. -/
def updateSlotCapacity (σ : State) (u : JWTPayload) (salonId slotId : Nat)
    (capacity : Option Int) : State × Except Err Slot :=
  if ¬ isSalonAdmin (some u) salonId then (σ, .error .accessDenied)
  else
    match capacity with
    | some c =>
      if c < 1 ∨ 50 < c then (σ, .error .validationError)
      else
        match σ.slots[slotId]? with
        | none => (σ, .error .notFound)
        | some slot =>
          if slot.salonId ≠ salonId then (σ, .error .notFound)
          else
            let slot' := { slot with capacity := c }
            ({ σ with slots := σ.slots.set slotId slot' }, .ok slot')
    | none =>
      match σ.slots[slotId]? with
      | none => (σ, .error .notFound)
      | some slot =>
        if slot.salonId ≠ salonId then (σ, .error .notFound)
        else (σ, .ok slot)

/-- Request body of `POST /api/salons` (the fields the claims touch, with
zod's length bounds modelled; the optional contact/url fields are carried
through unvalidated as in the schema). -/
structure CreateSalonData where
  name : String
  address : String
  city : String
  phone : Option String := none
  email : Option String := none
  operatingHours : Option (List (String × DayHours)) := none
deriving DecidableEq, Repr

/-- The hard-coded default weekly hours of the create-salon handler. -/
def defaultHours : List (String × DayHours) :=
  [ ("monday", ⟨"09:00", "18:00", false⟩)
  , ("tuesday", ⟨"09:00", "18:00", false⟩)
  , ("wednesday", ⟨"09:00", "18:00", false⟩)
  , ("thursday", ⟨"09:00", "18:00", false⟩)
  , ("friday", ⟨"09:00", "18:00", false⟩)
  , ("saturday", ⟨"10:00", "16:00", false⟩)
  , ("sunday", ⟨"10:00", "16:00", true⟩) ]

/-- `POST /api/salons` (create salon), `routes/salons.ts` lines 198-246.
Validates lengths per `createSalonSchema`, then stores the salon with
`status: 'pending'` hard-coded and `operatingHours` defaulted, and adds the
creator as salon admin (the membership table is outside this model).
Returns the new salon's id. -/
def createSalon (σ : State) (u : JWTPayload) (data : CreateSalonData) :
    State × Except Err Nat :=
  if data.name.length < 2 ∨ 100 < data.name.length
      ∨ data.address.length < 5 ∨ 200 < data.address.length
      ∨ data.city.length < 2 ∨ 100 < data.city.length then
    (σ, .error .validationError)
  else
    let salon : Salon :=
      { name := data.name
        status := .pending
        createdBy := u.userId
        phone := data.phone
        email := data.email
        operatingHours := data.operatingHours.getD defaultHours }
    (⟨σ.users, σ.salons ++ [salon], σ.services, σ.slots, σ.bookings⟩,
     .ok σ.salons.length)

/-- Contact-info sanitization of the salon list route (`routes/salons.ts`
lines 93-103): phone and email survive only for salon staff of that salon or
a super admin. -/
def sanitizeListSalon (user : Option JWTPayload) (id : Nat) (salon : Salon) : Salon :=
  let canViewContact := isSalonStaff user id || isSuperAdmin user
  { salon with
    phone := if canViewContact then salon.phone else none
    email := if canViewContact then salon.email else none }

/-- Contact-info sanitization of the salon detail route (`routes/salons.ts`
lines 136-148): additionally hides the social/contact links. -/
def sanitizeDetailSalon (user : Option JWTPayload) (id : Nat) (salon : Salon) : Salon :=
  let canViewContact := isSalonStaff user id || isSuperAdmin user
  { salon with
    phone := if canViewContact then salon.phone else none
    email := if canViewContact then salon.email else none
    facebookPage := if canViewContact then salon.facebookPage else none
    instagramPage := if canViewContact then salon.instagramPage else none
    whatsAppNumber := if canViewContact then salon.whatsAppNumber else none }

/-- `GET /api/salons` (list), `routes/salons.ts` lines 43-114, restricted to
the permission filter and sanitization (the city/search/status filters and
pagination only narrow the result set further and are orthogonal to the
claims).  Returns `(id, sanitized salon)` pairs. -/
def listSalons (σ : State) (user : Option JWTPayload) (includeOwn : Bool) :
    List (Nat × Salon) :=
  let visible : Nat × Salon → Bool := fun p =>
    if isSuperAdmin user then true
    else
      match user with
      | some u =>
        if includeOwn then p.2.status == .approved || p.2.createdBy == u.userId
        else p.2.status == .approved
      | none => p.2.status == .approved
  (σ.salons.enum.filter visible).map fun p => (p.1, sanitizeListSalon user p.1 p.2)

/-- `GET /api/salons/:salonId` (detail), `routes/salons.ts` lines 120-150:
a non-approved salon is visible only to a super admin or its creator; the
returned salon is sanitized. -/
def getSalon (σ : State) (user : Option JWTPayload) (salonId : Nat) :
    Except Err Salon :=
  match σ.salons[salonId]? with
  | none => .error .notFound
  | some salon =>
    let visible := isSuperAdmin user || salon.status == .approved ||
      (match user with
       | some u => salon.createdBy == u.userId
       | none => false)
    if visible then .ok (sanitizeDetailSalon user salonId salon)
    else .error .notFound

/-- `String.prototype.split(sep)` over the character list (structural, so
concrete instances evaluate in the kernel). -/
def splitOnChar (sep : Char) : List Char → List (List Char)
  | [] => [[]]
  | c :: rest =>
    match splitOnChar sep rest with
    | [] => [[c]]
    | x :: xs => if c = sep then [] :: x :: xs else (c :: x) :: xs

/-- JS `Number(...)` restricted to plain digit strings, which is all the
generation loop meets for well-formed `HH:MM` hours; any other field yields
NaN loop bounds in JS, i.e. an empty day, modelled as `none`. -/
def digitsToNat? (cs : List Char) : Option Nat :=
  if cs ≠ [] ∧ cs.all Char.isDigit then
    some (cs.foldl (fun n c => n * 10 + (c.toNat - 48)) 0)
  else none

/-- `"HH:MM".split(':').map(Number)` of the slot-generation handler: parses
the first two `:`-separated fields and returns minutes since midnight. -/
def parseTimeHM (s : String) : Option Nat :=
  match splitOnChar (':') s.toList with
  | h :: m :: _ =>
    match digitsToNat? h, digitsToNat? m with
    | some hh, some mm => some (hh * 60 + mm)
    | _, _ => none
  | _ => none

/-- The inner generation loop of `POST /api/salons/:salonId/slots/generate`
(`routes/salons.ts` lines 543-565): starting at `t` minutes, emit a start
time and step by `D` while `t + D ≤ close`.  The `0 < D` guard reflects the
zod bound `slotDurationMinutes ≥ 15` checked before the loop runs (and makes
the recursion well-founded). -/
def genTimes (t close D : Nat) : List Nat :=
  if _h : 0 < D ∧ t + D ≤ close then t :: genTimes (t + D) close D else []
termination_by close - t
decreasing_by omega

/-- One day of the slot-generation route (`routes/salons.ts` lines 531-566):
skip the day when marked closed or when an hours string is empty (JS
truthiness) or unparsable (NaN bounds); otherwise run the loop and return
the `[start, end)` windows in minutes. -/
def generateDaySlots (config : DayHours) (D : Nat) : List (Nat × Nat) :=
  if config.closed || config.openTime == "" || config.closeTime == "" then []
  else
    match parseTimeHM config.openTime, parseTimeHM config.closeTime with
    | some o, some c => (genTimes o c D).map fun t => (t, t + D)
    | _, _ => []

/-- A booking counts against its slot's capacity iff its status is `booked`
or `in_progress` (spec glossary: active booking). -/
def isActive (b : Booking) : Bool :=
  b.status == .booked || b.status == .in_progress

/-- Number of active bookings referencing slot `slotId`. -/
def activeCount (bookings : List Booking) (slotId : Nat) : Nat :=
  bookings.countP fun b => b.slotId == slotId && isActive b

/-- Spec invariant: every slot's `bookedCount` equals the number of active
bookings referencing it. -/
def slotInvariant (σ : State) : Prop :=
  ∀ i (h : i < σ.slots.length),
    (σ.slots[i]).bookedCount = (activeCount σ.bookings i : Int)

/-- Spec invariant: `0 ≤ bookedCount ≤ capacity` for every slot. -/
def slotBounds (σ : State) : Prop :=
  ∀ i (h : i < σ.slots.length),
    0 ≤ (σ.slots[i]).bookedCount ∧
    (σ.slots[i]).bookedCount ≤ (σ.slots[i]).capacity

deriving instance DecidableEq for Except

instance (σ : State) : Decidable (slotInvariant σ) := by
  unfold slotInvariant; infer_instance

instance (σ : State) : Decidable (slotBounds σ) := by
  unfold slotBounds; infer_instance

/-! Concrete fixtures used by witnesses and counterexamples. -/

/-- An approved salon with no stored contact info. -/
def salonA : Salon := { name := "Salon A", status := .approved, createdBy := 0 }

/-- An approved salon with stored phone and email. -/
def salonContact : Salon :=
  { name := "Salon B", status := .approved, createdBy := 0,
    phone := some ("0400000000"), email := some ("owner@salonb.example") }

/-- An active 30-minute service of salon 0. -/
def serviceA : Service := { salonId := 0, durationMinutes := 30, isActive := true }

/-- A `booked` booking by user 0 on slot 0 of salon 0. -/
def bookedB : Booking :=
  { userId := 0, salonId := 0, serviceId := 0, slotId := 0, status := .booked }

/-- A slot of salon 0 at full capacity (1 of 1). -/
def slotFullA : Slot := { salonId := 0, capacity := 1, bookedCount := 1 }

/-- A staff member of salon 0. -/
def staffU : JWTPayload :=
  { userId := 5, roles := [], salonMemberships := [⟨0, MemberRole.salon_staff⟩] }

/-- User 0, no roles or memberships. -/
def ownerU : JWTPayload := { userId := 0, roles := [], salonMemberships := [] }

/-- One user, one approved salon, one active service, one full slot holding
the one `booked` booking. -/
def σbase : State :=
  { users := 1, salons := [salonA], services := [serviceA],
    slots := [slotFullA], bookings := [bookedB] }

/-- Like `σbase` but with a second slot, also full, not referenced by any
booking beyond its counter. -/
def σ2slots : State :=
  { users := 1, salons := [salonA], services := [serviceA],
    slots := [slotFullA, { salonId := 0, capacity := 1, bookedCount := 1 }],
    bookings := [bookedB] }

/-- Like `σbase` but slot 0 has spare capacity (1 of 2 booked), so a second
booking by the same user for the same slot is possible. -/
def σdup : State :=
  { users := 1, salons := [salonA], services := [serviceA],
    slots := [{ salonId := 0, capacity := 2, bookedCount := 1 }],
    bookings := [bookedB] }

/-- A salon with contact info as the only row. -/
def σsalon : State :=
  { users := 1, salons := [salonContact], services := [], slots := [],
    bookings := [] }

/-- A create-booking request for salon/service/slot 0. -/
def reqA : CreateBookingReq := { salonId := 0, serviceId := 0, slotId := 0 }

/-- A schema-valid create-salon request. -/
def salonReqA : CreateSalonData :=
  { name := "New Salon", address := "1 George St", city := "Sydney" }

/-- Claim C8: the access-policy functions form a hierarchy. -/
theorem access_policy_hierarchy (user : Option JWTPayload) (salonId : Nat) :
    (isSuperAdmin user = true →
      isSalonAdmin user salonId = true ∧ isSalonStaff user salonId = true)
    ∧ (isSalonAdmin user salonId = true → isSalonStaff user salonId = true) := by
  refine ⟨fun h => ⟨?_, ?_⟩, fun h => ?_⟩
  · simp [isSalonAdmin, h]
  · simp [isSalonStaff, h]
  · cases user with
    | none => simp [isSalonAdmin, isSuperAdmin] at h
    | some u =>
      by_cases hs : isSuperAdmin (some u) = true
      · simp [isSalonStaff, hs]
      · have h' : ∃ m ∈ u.salonMemberships,
            m.salonId = salonId ∧ m.role = MemberRole.salon_admin := by
          simpa [isSalonAdmin, hs] using h
        obtain ⟨m, hm, hsid, _⟩ := h'
        simp [isSalonStaff, hs]
        exact ⟨m, hm, hsid⟩

/-- Witness for C8 at a concrete salon-admin payload. -/
theorem access_policy_hierarchy_witness :
    isSalonStaff (some ⟨7, [Role.user], [⟨3, MemberRole.salon_admin⟩]⟩) 3 = true :=
  (access_policy_hierarchy
    (some ⟨7, [Role.user], [⟨3, MemberRole.salon_admin⟩]⟩) 3).2 (by decide)

theorem genTimes_pos {t close D : Nat} (hD : 0 < D) (hle : t + D ≤ close) :
    genTimes t close D = t :: genTimes (t + D) close D := by
  rw [genTimes]; simp [hD, hle]

theorem genTimes_stop {t close D : Nat} (h : ¬ (0 < D ∧ t + D ≤ close)) :
    genTimes t close D = [] := by
  rw [genTimes]; simp [h]

theorem mem_genTimes_aux (close D : Nat) (hD : 0 < D) :
    ∀ n t x, close - t ≤ n →
      (x ∈ genTimes t close D ↔ ∃ k, x = t + k * D ∧ x + D ≤ close) := by
  intro n
  induction n with
  | zero =>
    intro t x hn
    rw [genTimes_stop (by omega)]
    simp only [List.not_mem_nil, false_iff]
    rintro ⟨k, rfl, hk⟩
    omega
  | succ n ih =>
    intro t x hn
    by_cases hle : t + D ≤ close
    · rw [genTimes_pos hD hle]
      simp only [List.mem_cons]
      constructor
      · rintro (rfl | hx)
        · exact ⟨0, by simp, hle⟩
        · obtain ⟨k, rfl, hk⟩ := (ih (t + D) x (by omega)).1 hx
          exact ⟨k + 1, by ring, hk⟩
      · rintro ⟨k, rfl, hk⟩
        cases k with
        | zero => left; simp
        | succ k =>
          right
          exact (ih (t + D) _ (by omega)).2 ⟨k, by ring, hk⟩
    · rw [genTimes_stop (by tauto)]
      simp only [List.not_mem_nil, false_iff]
      rintro ⟨k, rfl, hk⟩
      omega

theorem mem_genTimes {t close D x : Nat} (hD : 0 < D) :
    x ∈ genTimes t close D ↔ ∃ k, x = t + k * D ∧ x + D ≤ close :=
  mem_genTimes_aux close D hD (close - t) t x le_rfl

/-- Claim C6: over a day with hours 09:00-10:00 and duration 30 exactly the
slots 09:00-09:30 and 09:30-10:00 are generated; with close 09:45 only
09:00-09:30; and in general (duration positive, as the zod bound
guarantees) a start time is emitted iff it lies on the stepping grid and its
slot ends by closing — no partial trailing slot. -/
theorem slot_generation_windows :
    generateDaySlots ⟨"09:00", "10:00", false⟩ 30 = [(540, 570), (570, 600)]
    ∧ generateDaySlots ⟨"09:00", "09:45", false⟩ 30 = [(540, 570)]
    ∧ ∀ openMin closeMin D x, 0 < D →
        (x ∈ genTimes openMin closeMin D ↔
          ∃ k, x = openMin + k * D ∧ x + D ≤ closeMin) := by
  refine ⟨?_, ?_, fun openMin closeMin D x hD => mem_genTimes hD⟩
  · have hg : genTimes 540 600 30 = [540, 570] := by
      rw [genTimes_pos (by norm_num) (by norm_num),
          genTimes_pos (by norm_num) (by norm_num),
          genTimes_stop (by omega)]
    simp [generateDaySlots, hg,
      show parseTimeHM ("09:00") = some 540 from by decide,
      show parseTimeHM ("10:00") = some 600 from by decide]
  · have hg : genTimes 540 585 30 = [540] := by
      rw [genTimes_pos (by norm_num) (by norm_num),
          genTimes_stop (by omega)]
    simp [generateDaySlots, hg,
      show parseTimeHM ("09:00") = some 540 from by decide,
      show parseTimeHM ("09:45") = some 585 from by decide]

/-- Witness for C6's general part at duration 30 over the 09:00-10:00
window. -/
theorem slot_generation_windows_witness :
    570 ∈ genTimes 540 600 30 :=
  (slot_generation_windows.2.2 540 600 30 570 (by norm_num)).2
    ⟨1, by norm_num, by norm_num⟩

/-- Claim C5: a create-booking request against a slot whose `bookedCount`
has reached its capacity fails with the slot-full error, and the state — all
slot and booking rows — is untouched. -/
theorem create_booking_slot_full (σ : State) (u : JWTPayload)
    (data : CreateBookingReq) (salon : Salon) (service : Service) (slot : Slot)
    (hu : u.userId < σ.users)
    (hs : σ.salons[data.salonId]? = some salon)
    (hap : salon.status = .approved)
    (hsv : σ.services[data.serviceId]? = some service)
    (hact : service.isActive = true)
    (hsl : σ.slots[data.slotId]? = some slot)
    (hfull : slot.capacity ≤ slot.bookedCount) :
    createBooking σ (some u) data = (σ, .error .slotFull) := by
  have hu' : ¬ σ.users ≤ u.userId := by omega
  simp [createBooking, hs, hsv, hsl, hap, hact, hfull, hu']

/-- Witness for C5 on the concrete full slot of `σbase`. -/
theorem create_booking_slot_full_witness :
    createBooking σbase (some ownerU) reqA = (σbase, .error .slotFull) :=
  create_booking_slot_full σbase ownerU reqA salonA serviceA slotFullA
    (by decide) (by decide) (by decide) (by decide) (by decide) (by decide)
    (by decide)

/-- Claim C7: completing or no-showing a `booked`/`in_progress` booking by
staff/admin sets `completedAt` and `completedBy` on the booking row and
leaves every slot row — in particular `bookedCount` — unchanged. -/
theorem complete_booking_frame (σ : State) (u : JWTPayload)
    (bookingId : Nat) (mark : Bool) (now : Nat) (b : Booking)
    (hb : σ.bookings[bookingId]? = some b)
    (hstatus : b.status = .booked ∨ b.status = .in_progress)
    (hperm : (isSalonStaff (some u) b.salonId || isSuperAdmin (some u)) = true) :
    completeBooking σ u bookingId mark now =
      ({ σ with
          bookings := σ.bookings.set bookingId (completedUpdate b mark now u.userId) },
       .ok (completedUpdate b mark now u.userId)) := by
  have hny : ¬ (b.status ≠ .booked ∧ b.status ≠ .in_progress) := by tauto
  simp [completeBooking, hb, hperm, hny]

/-- Witness for C7: a staff completion on `σbase` leaves the slot table
untouched. -/
theorem complete_booking_frame_witness :
    (completeBooking σbase staffU 0 false 99).1.slots = σbase.slots := by
  rw [complete_booking_frame σbase staffU 0 false 99 bookedB (by decide)
    (Or.inl (by decide)) (by decide)]

/-- Claim C9: every salon stored by the create-salon handler has status
`pending`. -/
theorem create_salon_status_pending (σ : State) (u : JWTPayload)
    (data : CreateSalonData) (σ' : State) (id : Nat)
    (h : createSalon σ u data = (σ', .ok id)) :
    ∃ s, σ'.salons[id]? = some s ∧ s.status = .pending := by
  unfold createSalon at h
  split at h
  · simp at h
  · simp only [Prod.mk.injEq, Except.ok.injEq] at h
    obtain ⟨hσ, hid⟩ := h
    subst hσ
    subst hid
    exact ⟨_, List.getElem?_concat_length _ _, rfl⟩

/-- Witness for C9 at a concrete valid request. -/
theorem create_salon_status_pending_witness :
    ∃ s, (createSalon σbase ownerU salonReqA).1.salons[1]? = some s
      ∧ s.status = .pending :=
  create_salon_status_pending σbase ownerU salonReqA
    (createSalon σbase ownerU salonReqA).1 1 (by decide)

/-- Claim C10: a salon returned by the list or detail route to an actor who
is neither staff of that salon nor super admin has its phone and email
omitted. -/
theorem salon_contact_hidden (σ : State) (user : Option JWTPayload)
    (inc : Bool) (i : Nat) (s : Salon) :
    (((i, s) ∈ listSalons σ user inc → isSalonStaff user i = false →
        isSuperAdmin user = false → s.phone = none ∧ s.email = none))
    ∧ (getSalon σ user i = .ok s → isSalonStaff user i = false →
        isSuperAdmin user = false → s.phone = none ∧ s.email = none) := by
  constructor
  · intro hmem hstaff hsup
    simp only [listSalons, List.mem_map, List.mem_filter] at hmem
    obtain ⟨p, ⟨_, _⟩, hp⟩ := hmem
    obtain ⟨hi, hs⟩ := Prod.mk.injEq .. ▸ hp
    subst hi
    rw [← hs]
    simp [sanitizeListSalon, hstaff, hsup]
  · intro hok hstaff hsup
    simp only [getSalon] at hok
    split at hok
    · exact absurd hok (by simp)
    · split at hok
      · simp only [Except.ok.injEq] at hok
        rw [← hok]
        simp [sanitizeDetailSalon, hstaff, hsup]
      · exact absurd hok (by simp)

/-- Witness for C10: an anonymous caller sees `σsalon`'s salon with contact
info hidden, through both routes. -/
theorem salon_contact_hidden_witness :
    (sanitizeListSalon none 0 salonContact).phone = none
    ∧ (sanitizeListSalon none 0 salonContact).email = none :=
  (salon_contact_hidden σsalon none false 0
    (sanitizeListSalon none 0 salonContact)).1 (by decide) (by decide)
    (by decide)

/-- Claim C4 is a code bug: `σdup` already holds a `booked` booking by user
0 for slot 0 (which has spare capacity), the repository's own
`docs/API_SPECIFICATION.md` rule 4 says a duplicate booking for the same
slot must be rejected, yet the create handler accepts the second request by
the same user for the same slot, adds a second booking row, and increments
`bookedCount`. -/
theorem duplicate_booking_not_rejected :
    (∃ b ∈ σdup.bookings, b.userId = ownerU.userId ∧ b.slotId = reqA.slotId
      ∧ b.status = .booked)
    ∧ (createBooking σdup (some ownerU) reqA).2.isOk = true
    ∧ ((createBooking σdup (some ownerU) reqA).1.slots[0]?).map
        Slot.bookedCount = some 2
    ∧ (createBooking σdup (some ownerU) reqA).1.bookings.length = 2 := by
  refine ⟨⟨bookedB, by decide, by decide, by decide, by decide⟩,
    by decide, by decide, by decide⟩

/-- Counterexample to claim C1 as stated: on `σbase` the count invariant
holds, a staff completion succeeds, and afterwards slot 0's `bookedCount`
(still 1) no longer equals its active-booking count (0). -/
theorem complete_breaks_count_invariant :
    slotInvariant σbase
    ∧ (completeBooking σbase staffU 0 false 99).2.isOk = true
    ∧ ¬ slotInvariant (completeBooking σbase staffU 0 false 99).1 := by
  refine ⟨by decide, by decide, by decide⟩

/-- Counterexample to claim C2 as stated: on `σ2slots` the bounds hold, a
staff reschedule of the booking onto the full slot 1 succeeds, and
afterwards slot 1 has `bookedCount = 2 > capacity = 1`. -/
theorem reschedule_breaks_capacity_bound :
    slotBounds σ2slots
    ∧ (updateBooking σ2slots staffU 0 { slotId := some 1 } 99).2 = .ok ()
    ∧ ¬ slotBounds (updateBooking σ2slots staffU 0 { slotId := some 1 } 99).1 := by
  refine ⟨by decide, by decide, by decide⟩

/-- Counterexample to claim C3 as stated: rescheduling the booking of
`σ2slots` onto slot 1, which is at full capacity, does not fail — it
succeeds, decrements the original slot 0 from 1 to 0, and changes the
booking's `slotId` to 1. -/
theorem reschedule_to_full_slot_succeeds :
    (updateBooking σ2slots staffU 0 { slotId := some 1 } 99).2 = .ok ()
    ∧ ((updateBooking σ2slots staffU 0 { slotId := some 1 } 99).1.slots[0]?).map
        Slot.bookedCount = some 0
    ∧ ((updateBooking σ2slots staffU 0 { slotId := some 1 } 99).1.bookings[0]?).map
        Booking.slotId = some 1 := by
  refine ⟨by decide, by decide, by decide⟩

theorem applyUpdatePayload_slotId (b : Booking) (data : UpdateBookingReq) (now : Nat) :
    (applyUpdatePayload b data now).slotId = data.slotId.getD b.slotId := by
  rcases data with ⟨ss, sv, sl, bd⟩
  cases ss <;> cases sv <;> cases sl <;> cases bd <;> rfl

theorem applyUpdatePayload_status (b : Booking) (data : UpdateBookingReq) (now : Nat) :
    (applyUpdatePayload b data now).status =
      if data.serviceStarted then .in_progress else b.status := by
  rcases data with ⟨ss, sv, sl, bd⟩
  cases ss <;> cases sv <;> cases sl <;> cases bd <;> rfl

theorem isActive_applyUpdatePayload (b : Booking) (data : UpdateBookingReq) (now : Nat)
    (hguard : data.serviceStarted = true → b.status = .booked) :
    isActive (applyUpdatePayload b data now) = isActive b := by
  simp only [isActive, applyUpdatePayload_status]
  cases hss : data.serviceStarted with
  | false => rfl
  | true => simp [hguard hss]

theorem countP_set_add (p : α → Bool) (l : List α) (i : Nat) (a : α)
    (hi : i < l.length) :
    (l.set i a).countP p + (if p l[i] then 1 else 0)
      = l.countP p + (if p a then 1 else 0) := by
  induction l generalizing i with
  | nil => simp at hi
  | cons x xs ih =>
    cases i with
    | zero =>
      simp only [List.set_cons_zero, List.countP_cons, List.getElem_cons_zero]
      omega
    | succ i =>
      simp only [List.set_cons_succ, List.countP_cons, List.getElem_cons_succ]
      have := ih i (by simpa using hi)
      omega

theorem activeCount_append (l : List Booking) (b : Booking) (j : Nat) :
    activeCount (l ++ [b]) j
      = activeCount l j + (if (b.slotId == j && isActive b) = true then 1 else 0) := by
  simp [activeCount, List.countP_append, List.countP_cons]

theorem activeCount_set (l : List Booking) (i : Nat) (b : Booking) (j : Nat)
    (hi : i < l.length) :
    activeCount (l.set i b) j
        + (if ((l[i]).slotId == j && isActive (l[i])) then 1 else 0)
      = activeCount l j + (if (b.slotId == j && isActive b) then 1 else 0) :=
  countP_set_add _ l i b hi

/-- Claim C3 amended: the reschedule transaction performs no capacity check
on the destination: moving a booking onto a slot already at full capacity
succeeds, decrements the original slot, pushes the destination's
`bookedCount` to `capacity + 1`, and rewrites the booking's `slotId`. -/
theorem reschedule_ignores_new_slot_capacity (σ : State) (u : JWTPayload)
    (bookingId now newSlotId : Nat) (b : Booking) (oldSlot newSlot : Slot)
    (hb : σ.bookings[bookingId]? = some b)
    (hperm : (isSalonStaff (some u) b.salonId || isSuperAdmin (some u)) = true)
    (hne : newSlotId ≠ b.slotId)
    (ho : σ.slots[b.slotId]? = some oldSlot)
    (hn : σ.slots[newSlotId]? = some newSlot)
    (hfull : newSlot.bookedCount = newSlot.capacity) :
    updateBooking σ u bookingId { slotId := some newSlotId } now =
      (⟨σ.users, σ.salons, σ.services,
        (σ.slots.set b.slotId
            ({ oldSlot with bookedCount := oldSlot.bookedCount - 1 })).set newSlotId
          ({ newSlot with bookedCount := newSlot.capacity + 1 }),
        σ.bookings.set bookingId ({ b with slotId := newSlotId })⟩,
       .ok ()) := by
  simp [updateBooking, applyUpdatePayload, hb, hperm, hne, ho, hn, ← hfull]

/-- Witness for C3's amended statement on `σ2slots`. -/
theorem reschedule_ignores_new_slot_capacity_witness :
    (updateBooking σ2slots staffU 0 { slotId := some 1 } 99).2.isOk = true := by
  rw [reschedule_ignores_new_slot_capacity σ2slots staffU 0 99 1 bookedB slotFullA
    ({ salonId := 0, capacity := 1, bookedCount := 1 }) (by decide) (by decide)
    (by decide) (by decide) (by decide) (by decide)]
  rfl

theorem create_preserves_bounds (σ : State) (hbd : slotBounds σ)
    (u : JWTPayload) (data : CreateBookingReq) (σ' : State) (bk : Booking)
    (h : createBooking σ (some u) data = (σ', .ok bk)) : slotBounds σ' := by
  simp only [createBooking] at h
  split at h
  · simp at h
  split at h
  · simp at h
  next salon hsalon =>
  split at h
  · simp at h
  split at h
  · simp at h
  next service hserv =>
  split at h
  · simp at h
  split at h
  · simp at h
  next slot hslot =>
  split at h
  · simp at h
  next hcap =>
  simp only [Prod.mk.injEq, Except.ok.injEq] at h
  obtain ⟨hσ, _⟩ := h
  subst hσ
  intro i hi
  simp only [List.length_set] at hi
  rcases eq_or_ne data.slotId i with rfl | hne
  · rw [List.getElem_set_self]
    obtain ⟨hlt, hget⟩ := List.getElem?_eq_some.mp hslot
    have hb0 := hbd data.slotId hlt
    rw [hget] at hb0
    dsimp only
    omega
  · rw [List.getElem_set_ne hne]
    exact hbd i hi

theorem cancel_preserves_bounds (σ : State) (hbd : slotBounds σ)
    (hinv : slotInvariant σ) (u : JWTPayload) (bookingId now : Nat)
    (σ' : State) (bk : Booking)
    (h : cancelBooking σ u bookingId now = (σ', .ok bk)) : slotBounds σ' := by
  simp only [cancelBooking] at h
  split at h
  · simp at h
  next booking hbme =>
  split at h
  · simp at h
  next hperm =>
  split at h
  · simp at h
  next hstat =>
  split at h
  · simp at h
  next slot hslot =>
  simp only [Prod.mk.injEq, Except.ok.injEq] at h
  obtain ⟨hσ, _⟩ := h
  subst hσ
  have hstat' : booking.status = .booked := not_ne_iff.mp hstat
  intro i hi
  simp only [List.length_set] at hi
  rcases eq_or_ne booking.slotId i with rfl | hne
  · rw [List.getElem_set_self]
    obtain ⟨hlt, hget⟩ := List.getElem?_eq_some.mp hslot
    have hb0 := hbd booking.slotId hlt
    rw [hget] at hb0
    have hinv0 := hinv booking.slotId hlt
    rw [hget] at hinv0
    have hmem : booking ∈ σ.bookings := by
      obtain ⟨hlt2, hget2⟩ := List.getElem?_eq_some.mp hbme
      exact hget2 ▸ σ.bookings.getElem_mem hlt2
    have hpos : 0 < activeCount σ.bookings booking.slotId :=
      List.countP_pos_iff.mpr ⟨booking, hmem, by simp [isActive, hstat']⟩
    dsimp only
    omega
  · rw [List.getElem_set_ne hne]
    exact hbd i hi

/-- Claim C2 amended: the bounds `0 ≤ bookedCount ≤ capacity` are preserved
by booking creation, and by cancellation whenever the count invariant holds
as well; they are not enforced by the slot-change reschedule (no capacity
check on the destination slot) nor by the capacity edit (no check against
`bookedCount`). -/
theorem capacity_bounds_preserved (σ : State) (hbd : slotBounds σ) :
    (∀ u data σ' bk, createBooking σ (some u) data = (σ', .ok bk) → slotBounds σ')
    ∧ (∀ u bookingId now σ' bk, slotInvariant σ →
        cancelBooking σ u bookingId now = (σ', .ok bk) → slotBounds σ') :=
  ⟨fun u data σ' bk h => create_preserves_bounds σ hbd u data σ' bk h,
   fun u bookingId now σ' bk hinv h =>
     cancel_preserves_bounds σ hbd hinv u bookingId now σ' bk h⟩

/-- Witness for C2's amended statement: creating a booking on `σdup`
preserves the bounds. -/
theorem capacity_bounds_preserved_witness :
    slotBounds (createBooking σdup (some ownerU) reqA).1 :=
  (capacity_bounds_preserved σdup (by decide)).1 ownerU reqA
    (createBooking σdup (some ownerU) reqA).1 ({ bookedB with endTime := 30 })
    (by decide)

theorem slotInvariant_mk (users : Nat) (salons : List Salon)
    (services : List Service) (slots : List Slot) (bookings : List Booking) :
    slotInvariant ⟨users, salons, services, slots, bookings⟩ ↔
      ∀ i (h : i < slots.length),
        (slots[i]).bookedCount = (activeCount bookings i : Int) :=
  Iff.rfl

theorem create_preserves_invariant (σ : State) (hinv : slotInvariant σ)
    (u : JWTPayload) (data : CreateBookingReq) (σ' : State) (bk : Booking)
    (h : createBooking σ (some u) data = (σ', .ok bk)) : slotInvariant σ' := by
  simp only [createBooking] at h
  split at h
  · simp at h
  split at h
  · simp at h
  next salon hsalon =>
  split at h
  · simp at h
  split at h
  · simp at h
  next service hserv =>
  split at h
  · simp at h
  split at h
  · simp at h
  next slot hslot =>
  split at h
  · simp at h
  next hcap =>
  simp only [Prod.mk.injEq, Except.ok.injEq] at h
  obtain ⟨hσ, _⟩ := h
  subst hσ
  rw [slotInvariant_mk]
  intro i hi
  rw [List.length_set] at hi
  rw [activeCount_append]
  rcases eq_or_ne data.slotId i with rfl | hne
  · rw [List.getElem_set_self]
    obtain ⟨hlt, hget⟩ := List.getElem?_eq_some.mp hslot
    have hinv0 := hinv data.slotId hlt
    rw [hget] at hinv0
    simp [isActive]
    omega
  · rw [List.getElem_set_ne hne]
    have hne' : (data.slotId == i) = false := by simpa using hne
    simp [hne']
    have := hinv i hi
    omega

theorem cancel_preserves_invariant (σ : State) (hinv : slotInvariant σ)
    (u : JWTPayload) (bookingId now : Nat) (σ' : State) (bk : Booking)
    (h : cancelBooking σ u bookingId now = (σ', .ok bk)) : slotInvariant σ' := by
  simp only [cancelBooking] at h
  split at h
  · simp at h
  next booking hbme =>
  split at h
  · simp at h
  next hperm =>
  split at h
  · simp at h
  next hstat =>
  split at h
  · simp at h
  next slot hslot =>
  simp only [Prod.mk.injEq, Except.ok.injEq] at h
  obtain ⟨hσ, _⟩ := h
  subst hσ
  have hstat' : booking.status = .booked := not_ne_iff.mp hstat
  rw [slotInvariant_mk]
  intro i hi
  rw [List.length_set] at hi
  obtain ⟨hltb, hgetb⟩ := List.getElem?_eq_some.mp hbme
  have hset := activeCount_set σ.bookings bookingId
    ({ booking with status := .cancelled, cancelledAt := some now }) i hltb
  rw [hgetb] at hset
  rcases eq_or_ne booking.slotId i with rfl | hne
  · rw [List.getElem_set_self]
    obtain ⟨hlt, hget⟩ := List.getElem?_eq_some.mp hslot
    have hinv0 := hinv booking.slotId hlt
    rw [hget] at hinv0
    simp [isActive, hstat'] at hset
    simp only []
    omega
  · rw [List.getElem_set_ne hne]
    have hne' : (booking.slotId == i) = false := by simpa using hne
    simp [hne'] at hset
    rw [hset]
    exact hinv i hi

theorem capacity_edit_preserves_invariant (σ : State) (hinv : slotInvariant σ)
    (u : JWTPayload) (salonId slotId : Nat) (c : Option Int) (σ' : State) (s : Slot)
    (h : updateSlotCapacity σ u salonId slotId c = (σ', .ok s)) : slotInvariant σ' := by
  simp only [updateSlotCapacity] at h
  split at h
  · simp at h
  split at h
  next c' =>
    split at h
    · simp at h
    split at h
    · simp at h
    next slot hslot =>
    split at h
    · simp at h
    simp only [Prod.mk.injEq, Except.ok.injEq] at h
    obtain ⟨hσ, _⟩ := h
    subst hσ
    rw [slotInvariant_mk]
    intro i hi
    rw [List.length_set] at hi
    rcases eq_or_ne slotId i with rfl | hne
    · rw [List.getElem_set_self]
      obtain ⟨hlt, hget⟩ := List.getElem?_eq_some.mp hslot
      have hinv0 := hinv slotId hlt
      rw [hget] at hinv0
      exact hinv0
    · rw [List.getElem_set_ne hne]
      exact hinv i hi
  · split at h
    · simp at h
    next slot hslot =>
    split at h
    · simp at h
    simp only [Prod.mk.injEq, Except.ok.injEq] at h
    obtain ⟨hσ, _⟩ := h
    subst hσ
    exact hinv

theorem update_preserves_invariant (σ : State) (hinv : slotInvariant σ)
    (u : JWTPayload) (bookingId : Nat) (data : UpdateBookingReq) (now : Nat)
    (σ' : State)
    (hact : ∀ bo, σ.bookings[bookingId]? = some bo → isActive bo = true)
    (h : updateBooking σ u bookingId data now = (σ', .ok ())) : slotInvariant σ' := by
  simp only [updateBooking] at h
  split at h
  · simp at h
  next booking hbme =>
  split at h
  · simp at h
  next hperm =>
  split at h
  · simp at h
  next hguard =>
  have hg : data.serviceStarted = true → booking.status = .booked := by
    intro hs
    by_contra hne
    exact hguard ⟨hs, hne⟩
  have hbact : isActive booking = true := hact booking hbme
  have hactive4 : isActive (applyUpdatePayload booking data now) = true := by
    rw [isActive_applyUpdatePayload booking data now hg]
    exact hbact
  obtain ⟨hltb, hgetb⟩ := List.getElem?_eq_some.mp hbme
  split at h
  next newSlotId hsl =>
    have hslotId4 : (applyUpdatePayload booking data now).slotId = newSlotId := by
      rw [applyUpdatePayload_slotId, hsl]
      rfl
    split at h
    next hne0 =>
      split at h
      next oldSlot newSlot ho hn =>
        simp only [Prod.mk.injEq] at h
        obtain ⟨hσ, _⟩ := h
        subst hσ
        rw [slotInvariant_mk]
        intro i hi
        rw [List.length_set, List.length_set] at hi
        have hset := activeCount_set σ.bookings bookingId
          (applyUpdatePayload booking data now) i hltb
        rw [hgetb] at hset
        simp only [hslotId4, hactive4, hbact, Bool.and_true] at hset
        rcases eq_or_ne newSlotId i with rfl | hne1
        · rw [List.getElem_set_self]
          obtain ⟨hltn, hgetn⟩ := List.getElem?_eq_some.mp hn
          have hinvn := hinv newSlotId hltn
          rw [hgetn] at hinvn
          have hbne : (booking.slotId == newSlotId) = false := by
            simpa using (Ne.symm hne0)
          simp [hbne] at hset
          simp only []
          omega
        · rw [List.getElem_set_ne hne1]
          rcases eq_or_ne booking.slotId i with rfl | hne2
          · rw [List.getElem_set_self]
            obtain ⟨hlto, hgeto⟩ := List.getElem?_eq_some.mp ho
            have hinvo := hinv booking.slotId hlto
            rw [hgeto] at hinvo
            have hnne : (newSlotId == booking.slotId) = false := by simpa using hne0
            simp [hnne] at hset
            simp only []
            omega
          · rw [List.getElem_set_ne hne2]
            have h1 : (booking.slotId == i) = false := by simpa using hne2
            have h2 : (newSlotId == i) = false := by simpa using hne1
            simp [h1, h2] at hset
            rw [hset]
            exact hinv i hi
      next =>
        simp at h
    next hne0 =>
      simp only [Prod.mk.injEq] at h
      obtain ⟨hσ, _⟩ := h
      subst hσ
      have heq : newSlotId = booking.slotId := not_ne_iff.mp hne0
      rw [slotInvariant_mk]
      intro i hi
      have hset := activeCount_set σ.bookings bookingId
        (applyUpdatePayload booking data now) i hltb
      rw [hgetb] at hset
      simp only [hslotId4, heq, hactive4, hbact, Bool.and_true] at hset
      have hset' : activeCount (σ.bookings.set bookingId
          (applyUpdatePayload booking data now)) i = activeCount σ.bookings i := by
        omega
      rw [hset']
      exact hinv i hi
  next hsl =>
    have hslotId4 : (applyUpdatePayload booking data now).slotId = booking.slotId := by
      rw [applyUpdatePayload_slotId, hsl]
      rfl
    simp only [Prod.mk.injEq] at h
    obtain ⟨hσ, _⟩ := h
    subst hσ
    rw [slotInvariant_mk]
    intro i hi
    have hset := activeCount_set σ.bookings bookingId
      (applyUpdatePayload booking data now) i hltb
    rw [hgetb] at hset
    simp only [hslotId4, hactive4, hbact, Bool.and_true] at hset
    have hset' : activeCount (σ.bookings.set bookingId
        (applyUpdatePayload booking data now)) i = activeCount σ.bookings i := by
      omega
    rw [hset']
    exact hinv i hi

/-- Claim C1 amended: the slot-count invariant is preserved by booking
creation, cancellation, an update whose target booking is active, and the
capacity edit; it is not preserved by complete/no-show transitions, which
move the booking out of the active set without releasing the slot, nor by a
slot-changing update of a non-active booking. -/
theorem count_invariant_preserved (σ : State) (hinv : slotInvariant σ) :
    (∀ u data σ' bk, createBooking σ (some u) data = (σ', .ok bk) →
      slotInvariant σ')
    ∧ (∀ u bookingId now σ' bk, cancelBooking σ u bookingId now = (σ', .ok bk) →
      slotInvariant σ')
    ∧ (∀ u bookingId data now σ',
        (∀ bo, σ.bookings[bookingId]? = some bo → isActive bo = true) →
        updateBooking σ u bookingId data now = (σ', .ok ()) → slotInvariant σ')
    ∧ (∀ u salonId slotId c σ' s,
        updateSlotCapacity σ u salonId slotId c = (σ', .ok s) →
        slotInvariant σ') :=
  ⟨fun u data σ' bk h => create_preserves_invariant σ hinv u data σ' bk h,
   fun u bookingId now σ' bk h =>
     cancel_preserves_invariant σ hinv u bookingId now σ' bk h,
   fun u bookingId data now σ' hact h =>
     update_preserves_invariant σ hinv u bookingId data now σ' hact h,
   fun u salonId slotId c σ' s h =>
     capacity_edit_preserves_invariant σ hinv u salonId slotId c σ' s h⟩

/-- Witness for C1's amended statement: cancelling the booking of `σbase`
keeps the count invariant. -/
theorem count_invariant_preserved_witness :
    slotInvariant (cancelBooking σbase ownerU 0 50).1 :=
  (count_invariant_preserved σbase (by decide)).2.1 ownerU 0 50
    (cancelBooking σbase ownerU 0 50).1
    ({ bookedB with status := .cancelled, cancelledAt := some 50 }) (by decide)

end SalonShop
